import Mathlib

/-!
Shallow embedding of the tcdw/cms backend (Bun + itty-router + Drizzle/SQLite
headless CMS) for checking its natural-language specification.

The live backend is the monorepo app under `apps/backend`: its controllers are
`postController.ts` / `categoryController.ts` (posts, categories), the auth
controller, the JWT utilities in `src/utils/auth.ts`, the Zod schemas in the
shared `@onechu/schemas` package, and the Drizzle schema in `src/db/schema.ts`.
Database tables are embedded as Lean lists of records; each controller becomes
a pure function from a database state and a request to an HTTP status code, an
optional response payload, and the successor database state.
-/

namespace CMS

/-- `users.role` column: `text("role", { enum: ["admin", "editor"] })`. -/
inductive Role where
  | admin : Role
  | editor : Role
deriving DecidableEq, Repr

/-- `posts.status` column: `text("status", { enum: ["draft", "published"] })`. -/
inductive PostStatus where
  | draft : PostStatus
  | published : PostStatus
deriving DecidableEq, Repr

/-- `posts.content_type` column: `text("content_type", { enum: ["markdown", "html"] })`. -/
inductive ContentType where
  | markdown : ContentType
  | html : ContentType
deriving DecidableEq, Repr

/-- A row of the `users` table (`src/db/schema.ts`).  SQLite timestamps are
embedded as natural numbers. -/
structure User where
  id : Nat
  username : String
  email : String
  password : String
  role : Role
  createdAt : Nat
  updatedAt : Nat
deriving DecidableEq, Repr

/-- A row of the `posts` table (`src/db/schema.ts`).  `excerpt` and
`featured_image` are nullable columns. -/
structure Post where
  id : Nat
  title : String
  slug : String
  content : String
  contentType : ContentType
  excerpt : Option String
  status : PostStatus
  featuredImage : Option String
  authorId : Nat
  createdAt : Nat
  updatedAt : Nat
deriving DecidableEq, Repr

/-- A row of the `categories` table (`src/db/schema.ts`). -/
structure Category where
  id : Nat
  name : String
  slug : String
  description : Option String
  createdAt : Nat
  updatedAt : Nat
deriving DecidableEq, Repr

/-- A row of the `post_categories` association table (composite primary key
`(postId, categoryId)`). -/
structure PostCategory where
  postId : Nat
  categoryId : Nat
deriving DecidableEq, Repr

/-- The database state: the four tables, each as a list of rows in storage
order. -/
structure Db where
  users : List User
  posts : List Post
  categories : List Category
  postCategories : List PostCategory
deriving DecidableEq, Repr

/-- `AuthUser` (`src/types`): the caller identity attached to a request by the
authentication middleware. -/
structure AuthUser where
  id : Nat
  username : String
  email : String
  role : Role
deriving DecidableEq, Repr

/-- `db.select().from(posts).where(eq(posts.id, id)).limit(1)`: first stored
row whose `id` column equals `id`. -/
def findPost (db : Db) (id : Nat) : Option Post :=
  db.posts.find? (fun p => p.id == id)

/-- `db.select().from(categories).where(eq(categories.id, id)).limit(1)`. -/
def findCategory (db : Db) (id : Nat) : Option Category :=
  db.categories.find? (fun c => c.id == id)

/-- `db.select().from(posts).where(eq(posts.slug, s)).limit(1)` viewed as a
Boolean existence test (the controllers only test whether the row exists). -/
def slugTaken (db : Db) (s : String) : Bool :=
  db.posts.any (fun p => p.slug == s)

/-- `db.select().from(categories).where(eq(categories.slug, s)).limit(1)`
viewed as a Boolean existence test. -/
def categorySlugTaken (db : Db) (s : String) : Bool :=
  db.categories.any (fun c => c.slug == s)

/-- SQLite auto-increment id for a fresh `posts` row: one more than the
largest id in the table. -/
def freshPostId (db : Db) : Nat :=
  (db.posts.map Post.id).foldr max 0 + 1

/-- SQLite auto-increment id for a fresh `users` row. -/
def freshUserId (db : Db) : Nat :=
  (db.users.map User.id).foldr max 0 + 1

/-! ## Validation utilities (`src/utils/validation.ts`) -/

/-- Character class `[a-z0-9-]` of the slug regex: an ASCII lowercase letter,
an ASCII digit, or a hyphen. -/
def isSlugChar (c : Char) : Bool :=
  ( 'a' ≤ c && c ≤ 'z') || ( '0' ≤ c && c ≤ '9') || c == '-'

/-- `validateSlug` (`src/utils/validation.ts`): tests the anchored regex
`^[a-z0-9-]+$`, i.e. a nonempty string of lowercase ASCII letters, digits and
hyphens. -/
def validateSlug (slug : String) : Bool :=
  !slug.data.isEmpty && slug.data.all isSlugChar

/-- Split a character list at every separator character (`String.split`
semantics: `n` separators yield `n+1` pieces, empty pieces included). -/
def splitOnPred (p : Char → Bool) : List Char → List (List Char)
  | [] => [[]]
  | c :: rest =>
      if p c then [] :: splitOnPred p rest
      else
        match splitOnPred p rest with
        | [] => [[c]]
        | t :: ts => (c :: t) :: ts

/-- `validateEmail` (`src/utils/validation.ts`): tests the regex
`^[^\s@]+@[^\s@]+\.[^\s@]+$`: a nonempty run of non-whitespace, non-`@`
characters, one `@`, and a domain that is again such a run and contains a dot
with at least one character on each side.  It also stands in for the Zod
`.email()` format check of the schemas package, which is third-party library
code; none of the theorems below depend on the shape of this predicate. -/
def validateEmail (email : String) : Bool :=
  let ok : Char → Bool := fun c => !(c.isWhitespace || c == '@')
  match splitOnPred (fun c => c == '@') email.data with
  | [localPart, domain] =>
      !localPart.isEmpty && localPart.all ok &&
        !domain.isEmpty && domain.all ok &&
        ((domain.drop 1).dropLast.contains '.')
  | _ => false

/-! ## SQL `LIKE` and the posts where-clause (`postController.ts`, `getPosts`)

Drizzle's `like(column, pattern)` compiles to the SQLite `LIKE` operator:
`%` matches any sequence of characters, `_` matches any single character, and
ordinary characters compare case-insensitively over the ASCII range (SQLite's
default `LIKE` behaviour). -/

/-- ASCII lower-casing as performed by SQLite's default `LIKE`. -/
def lowerAscii (c : Char) : Char :=
  if 'A' ≤ c && c ≤ 'Z' then Char.ofNat (c.toNat + 32) else c

/-- Case-insensitive (ASCII) character comparison used by SQLite `LIKE`. -/
def charEqCI (a b : Char) : Bool :=
  lowerAscii a == lowerAscii b

/-- Match the remainder of a `LIKE` pattern against every suffix of the
subject (the behaviour of a `%` wildcard). -/
def likeStar (matchTail : List Char → Bool) : List Char → Bool
  | [] => matchTail []
  | c :: rest => matchTail (c :: rest) || likeStar matchTail rest

/-- SQLite `LIKE` pattern matching over explicit character lists. -/
def likeMatch : List Char → List Char → Bool
  | [], s => s.isEmpty
  | '%' :: ps, s => likeStar (likeMatch ps) s
  | '_' :: ps, s =>
      match s with
      | [] => false
      | _ :: rest => likeMatch ps rest
  | p :: ps, s =>
      match s with
      | [] => false
      | c :: rest => charEqCI p c && likeMatch ps rest

/-- `column LIKE pattern` on strings. -/
def strLike (pattern subject : String) : Bool :=
  likeMatch pattern.data subject.data

/-- The Drizzle condition expressions that `getPosts` builds: `eq` on status,
`eq` on author id, `like` on title or content, `inArray` on post ids, the
impossible condition `eq(posts.id, -1)` (embedded as `never`, since embedded
ids are naturals), and `or`/`and` combinations. -/
inductive Cond where
  | statusIs : PostStatus → Cond
  | authorIs : Nat → Cond
  | titleLike : String → Cond
  | contentLike : String → Cond
  | idIn : List Nat → Cond
  | never : Cond
  | disj : Cond → Cond → Cond
  | conj : Cond → Cond → Cond
deriving DecidableEq, Repr

/-- Evaluate a condition on a `posts` row. -/
def evalCond : Cond → Post → Bool
  | Cond.statusIs st, p => p.status == st
  | Cond.authorIs a, p => p.authorId == a
  | Cond.titleLike pat, p => strLike pat p.title
  | Cond.contentLike pat, p => strLike pat p.content
  | Cond.idIn ids, p => ids.contains p.id
  | Cond.never, _ => false
  | Cond.disj a b, p => evalCond a p || evalCond b p
  | Cond.conj a b, p => evalCond a p && evalCond b p

/-- Variadic `or(...)`: the controllers only apply it to nonempty lists. -/
def orAll : List Cond → Cond
  | [] => Cond.never
  | [c] => c
  | c :: cs => Cond.disj c (orAll cs)

/-- Variadic `and(...)`: the controllers only apply it to nonempty lists. -/
def andAll : List Cond → Cond
  | [] => Cond.never
  | [c] => c
  | c :: cs => Cond.conj c (andAll cs)

/-- `query.search.split(/\s+/).filter(k => k.length > 0)`: whitespace-run
tokenization with empty tokens dropped. -/
def searchKeywords (s : String) : List String :=
  ((splitOnPred Char.isWhitespace s.data).map String.mk).filter
    (fun k => k.length > 0)

/-- Allowed `sortBy` values of the posts listing query. -/
inductive SortByCol where
  | createdAtCol : SortByCol
  | updatedAtCol : SortByCol
  | titleCol : SortByCol
deriving DecidableEq, Repr

/-- Allowed `sortOrder` values. -/
inductive SortDir where
  | ascDir : SortDir
  | descDir : SortDir
deriving DecidableEq, Repr

/-- The validated posts listing query (output of `postsQuerySchema.parse`). -/
structure PostsQuery where
  page : Nat
  limit : Nat
  status : Option PostStatus
  category : Option Nat
  author : Option Nat
  search : Option String
  sortBy : SortByCol
  sortOrder : SortDir
deriving DecidableEq, Repr

/-- The raw posts listing query string: numeric parameters already coerced by
the controller's `Number(...)` pre-step, everything else as given strings. -/
structure RawPostsQuery where
  page : Option Int
  limit : Option Int
  status : Option String
  category : Option Int
  author : Option Int
  search : Option String
  sortBy : Option String
  sortOrder : Option String
deriving DecidableEq, Repr

/-- `page: z.coerce.number().int().min(1).default(1)`. -/
def parsePageParam (v : Option Int) : Option Nat :=
  match v with
  | none => some 1
  | some n => if 1 ≤ n then some n.toNat else none

/-- `limit: z.coerce.number().int().min(1).max(100).default(10)`. -/
def parseLimitParam (v : Option Int) : Option Nat :=
  match v with
  | none => some 10
  | some n => if 1 ≤ n && n ≤ 100 then some n.toNat else none

/-- `status: z.enum(["draft", "published"]).optional()`. -/
def parseStatusParam (v : Option String) : Option (Option PostStatus) :=
  match v with
  | none => some none
  | some "draft" => some (some PostStatus.draft)
  | some "published" => some (some PostStatus.published)
  | some _ => none

/-- `category`/`author`: `z.coerce.number().int().positive().optional()`. -/
def parsePosParam (v : Option Int) : Option (Option Nat) :=
  match v with
  | none => some none
  | some n => if 0 < n then some (some n.toNat) else none

/-- `sortBy: z.enum(["created_at", "updated_at", "title"]).default("created_at")`. -/
def parseSortByParam (v : Option String) : Option SortByCol :=
  match v with
  | none => some SortByCol.createdAtCol
  | some "created_at" => some SortByCol.createdAtCol
  | some "updated_at" => some SortByCol.updatedAtCol
  | some "title" => some SortByCol.titleCol
  | some _ => none

/-- `sortOrder: z.enum(["asc", "desc"]).default("desc")`. -/
def parseSortOrderParam (v : Option String) : Option SortDir :=
  match v with
  | none => some SortDir.descDir
  | some "asc" => some SortDir.ascDir
  | some "desc" => some SortDir.descDir
  | some _ => none

/-- `postsQuerySchema.parse`: Zod coercion, bounds checks, enum membership and
defaults; the object validates iff every field validates (Zod object
semantics). -/
def parsePostsQuery (r : RawPostsQuery) : Option PostsQuery :=
  match parsePageParam r.page, parseLimitParam r.limit,
      parseStatusParam r.status, parsePosParam r.category,
      parsePosParam r.author, parseSortByParam r.sortBy,
      parseSortOrderParam r.sortOrder with
  | some page, some limit, some status, some category, some author,
      some sortBy, some sortOrder =>
      some { page := page, limit := limit, status := status
             category := category, author := author, search := r.search
             sortBy := sortBy, sortOrder := sortOrder }
  | _, _, _, _, _, _, _ => none

/-- The `conditions` array built by `getPosts`: status filter, author filter,
then the free-text search condition.  An empty `search` string is falsy in
JavaScript, and an all-whitespace search produces no keywords; both add no
condition. -/
def postsConditions (q : PostsQuery) : List Cond :=
  (match q.status with
    | some st => [Cond.statusIs st]
    | none => []) ++
  (match q.author with
    | some a => [Cond.authorIs a]
    | none => []) ++
  (match q.search with
    | some s =>
        if s.data.isEmpty then []
        else
          let keywords := searchKeywords s
          if keywords.isEmpty then []
          else
            [orAll (keywords.map (fun k =>
              Cond.disj (Cond.titleLike ("%" ++ k ++ "%"))
                (Cond.contentLike ("%" ++ k ++ "%"))))]
    | none => [])

/-- The final where-clause of `getPosts`: `and(...conditions)` when any exist,
then conjoined with the category membership filter (ids from the
`post_categories` lookup, or the impossible `eq(posts.id, -1)` when the
category has no posts). -/
def whereClause (db : Db) (q : PostsQuery) : Option Cond :=
  let base := postsConditions q
  let w0 : Option Cond := if base.isEmpty then none else some (andAll base)
  match q.category with
  | none => w0
  | some c =>
      let pids := (db.postCategories.filter
        (fun pc => pc.categoryId == c)).map PostCategory.postId
      let catFilter := if pids.isEmpty then Cond.never else Cond.idIn pids
      match w0 with
      | none => some catFilter
      | some w => some (Cond.conj w catFilter)

/-- A missing where-clause keeps every row. -/
def evalWhere (w : Option Cond) (p : Post) : Bool :=
  match w with
  | none => true
  | some c => evalCond c p

/-- Comparison key for `ORDER BY`: the allow-listed column. -/
def postLe (sb : SortByCol) (a b : Post) : Bool :=
  match sb with
  | SortByCol.createdAtCol => a.createdAt ≤ b.createdAt
  | SortByCol.updatedAtCol => a.updatedAt ≤ b.updatedAt
  | SortByCol.titleCol => a.title ≤ b.title

/-- `ORDER BY col ASC` or `ORDER BY col DESC`. -/
def postOrd (q : PostsQuery) (a b : Post) : Bool :=
  match q.sortOrder with
  | SortDir.ascDir => postLe q.sortBy a b
  | SortDir.descDir => postLe q.sortBy b a

/-- Insert a row into a sorted list (the embedding's `ORDER BY` sort). -/
def insertPost (le : Post → Post → Bool) (p : Post) : List Post → List Post
  | [] => [p]
  | q :: rest => if le p q then p :: q :: rest else q :: insertPost le p rest

/-- Insertion sort realising the SQL `ORDER BY`. -/
def sortPosts (le : Post → Post → Bool) : List Post → List Post
  | [] => []
  | p :: rest => insertPost le p (sortPosts le rest)

/-- The rows satisfying the where-clause (the set the `COUNT` query counts). -/
def filteredPosts (db : Db) (q : PostsQuery) : List Post :=
  db.posts.filter (evalWhere (whereClause db q))

/-- The paginated response body of `getPosts`. -/
structure PostsPage where
  data : List Post
  page : Nat
  limit : Nat
  total : Nat
  totalPages : Nat
deriving DecidableEq, Repr

/-- `getPosts` listing core: filter, sort, `LIMIT limit OFFSET (page-1)*limit`,
a `COUNT` with the same where-clause, and
`totalPages = Math.ceil(totalCount / limit)` (exact natural-number ceiling
division, as both operands are naturals and `limit ≥ 1`). -/
def getPostsResult (db : Db) (q : PostsQuery) : PostsPage :=
  let filtered := filteredPosts db q
  let sorted := sortPosts (postOrd q) filtered
  { data := (sorted.drop ((q.page - 1) * q.limit)).take q.limit
    page := q.page
    limit := q.limit
    total := filtered.length
    totalPages := (filtered.length + q.limit - 1) / q.limit }

/-! ## Post mutations (`postController.ts`) -/

/-- The validated body of `POST /posts` (output of `insertPostSchema.parse`,
with the Zod defaults `contentType := markdown`, `status := draft` already
applied). -/
structure PostInsert where
  title : String
  slug : String
  content : String
  contentType : ContentType
  excerpt : Option String
  status : PostStatus
  featuredImage : Option String
deriving DecidableEq, Repr

/-- The validated body of `PATCH /posts/:id` (output of
`postUpdateSchema.parse`, where `postUpdateSchema = insertPostSchema.partial()`
makes every field optional). -/
structure PostUpdate where
  title : Option String := none
  slug : Option String := none
  content : Option String := none
  contentType : Option ContentType := none
  excerpt : Option String := none
  status : Option PostStatus := none
  featuredImage : Option String := none
deriving DecidableEq, Repr

/-- `db.update(posts).set({ ...data, updatedAt: new Date() })`: fields present
in the parsed update overwrite the row, everything else is untouched, and
`updatedAt` is always set.  The update schema has no `authorId`, `createdAt`
or `id` field, so those columns cannot be written. -/
def applyPostUpdate (p : Post) (d : PostUpdate) (now : Nat) : Post :=
  { p with
    title := d.title.getD p.title
    slug := d.slug.getD p.slug
    content := d.content.getD p.content
    contentType := d.contentType.getD p.contentType
    excerpt := match d.excerpt with
      | some e => some e
      | none => p.excerpt
    status := d.status.getD p.status
    featuredImage := match d.featuredImage with
      | some f => some f
      | none => p.featuredImage
    updatedAt := now }

/-- `if (data.slug && !validateSlug(data.slug))`: the 400 branch of the slug
format check.  An empty string is falsy in JavaScript, hence the
`!s.isEmpty` conjunct (unreachable after Zod's regex check, but embedded
faithfully). -/
def updateSlugBad (d : PostUpdate) : Bool :=
  match d.slug with
  | some s => !s.data.isEmpty && !validateSlug s
  | none => false

/-- `if (data.slug && data.slug !== existingPost[0].slug)` followed by the
slug uniqueness lookup: the 409 branch condition of `updatePost`. -/
def updateSlugConflict (db : Db) (d : PostUpdate) (post : Post) : Bool :=
  match d.slug with
  | some s => !s.data.isEmpty && s ≠ post.slug && slugTaken db s
  | none => false

/-- The category existence check of `createPost`:
`validCategories.length !== categoryIds.length` after
`inArray(categories.id, categoryIds)`, guarded by a nonempty id list. -/
def createCatsMismatch (db : Db) (categoryIds : List Nat) : Bool :=
  !categoryIds.isEmpty &&
    (db.categories.filter (fun c => categoryIds.contains c.id)).length
      ≠ categoryIds.length

/-- The `posts` row inserted by `createPost`: the validated body plus the
auto-increment id, the caller as author, and fresh timestamps. -/
def newPostRow (db : Db) (caller : AuthUser) (data : PostInsert)
    (now : Nat) : Post :=
  { id := freshPostId db, title := data.title, slug := data.slug
    content := data.content, contentType := data.contentType
    excerpt := data.excerpt, status := data.status
    featuredImage := data.featuredImage, authorId := caller.id
    createdAt := now, updatedAt := now }

/-- `createPost`: slug format check, slug uniqueness, category existence
check, then the insert of the post row and its association rows. -/
def createPost (db : Db) (caller : AuthUser) (data : PostInsert)
    (categoryIds : List Nat) (now : Nat) : Nat × Db :=
  if !validateSlug data.slug then (400, db)
  else if slugTaken db data.slug then (409, db)
  else if createCatsMismatch db categoryIds then (404, db)
  else
    (201,
      { db with
        posts := db.posts ++ [newPostRow db caller data now]
        postCategories := db.postCategories ++
          categoryIds.map (fun c => { postId := freshPostId db, categoryId := c }) })

/-- The posts table after `db.update(posts).set(...).where(eq(posts.id, id))`:
the matching row rewritten, all other rows untouched. -/
def updatedPosts (db : Db) (id : Nat) (d : PostUpdate) (now : Nat) : List Post :=
  db.posts.map (fun p => if p.id == id then applyPostUpdate p d now else p)

/-- `updatePost`: slug format check, row lookup (404), owner-or-admin check
(403), slug conflict check (409), then the update and — when `categoryIds`
was supplied — the delete-then-insert replacement of the association rows. -/
def updatePost (db : Db) (caller : AuthUser) (id : Nat) (d : PostUpdate)
    (categoryIds : Option (List Nat)) (now : Nat) : Nat × Db :=
  if updateSlugBad d then (400, db)
  else
    match findPost db id with
    | none => (404, db)
    | some post =>
        if post.authorId ≠ caller.id && caller.role ≠ Role.admin then (403, db)
        else if updateSlugConflict db d post then (409, db)
        else
          let db1 := { db with posts := updatedPosts db id d now }
          let db2 :=
            match categoryIds with
            | none => db1
            | some cids =>
                { db1 with
                  postCategories :=
                    db1.postCategories.filter (fun pc => pc.postId ≠ id) ++
                      cids.map (fun c => { postId := id, categoryId := c }) }
          (200, db2)

/-- First delete statement of `deletePost`:
`db.delete(postCategories).where(eq(postCategories.postId, id))`. -/
def deletePostAssocStep (db : Db) (id : Nat) : Db :=
  { db with postCategories := db.postCategories.filter (fun pc => pc.postId ≠ id) }

/-- Second delete statement of `deletePost`:
`db.delete(posts).where(eq(posts.id, id))`. -/
def deletePostRowStep (db : Db) (id : Nat) : Db :=
  { db with posts := db.posts.filter (fun p => p.id ≠ id) }

/-- `deletePost`: row lookup (404), owner-or-admin check (403), then the
association rows are deleted first and the post row second. -/
def deletePost (db : Db) (caller : AuthUser) (id : Nat) : Nat × Db :=
  match findPost db id with
  | none => (404, db)
  | some post =>
      if post.authorId ≠ caller.id && caller.role ≠ Role.admin then (403, db)
      else (200, deletePostRowStep (deletePostAssocStep db id) id)

/-- `deleteCategory` (`categoryController.ts`): admin check (403), row lookup
(404), `COUNT(*)` over the association rows referencing the category — a
positive count returns 400 and leaves the store untouched — and otherwise the
category row is deleted. -/
def deleteCategory (db : Db) (caller : AuthUser) (id : Nat) : Nat × Db :=
  if caller.role ≠ Role.admin then (403, db)
  else
    match findCategory db id with
    | none => (404, db)
    | some _ =>
        if 0 < (db.postCategories.filter (fun pc => pc.categoryId == id)).length
        then (400, db)
        else (200, { db with categories := db.categories.filter (fun c => c.id ≠ id) })

/-! ## Credential & token service (`src/utils/auth.ts`)

`jwt.sign` / `jwt.verify` are the third-party `jsonwebtoken` library.
Modelled from the spec: `generateToken(claims)` signs the claims
`{userId, username, email, role}` with a shared secret and a configurable
lifetime, and verification fails on a wrong secret, on expiry, or on a
malformed token. -/

/-- `JWTPayload` (`src/types`): the claims embedded in a session token. -/
structure JWTPayload where
  userId : Nat
  username : String
  email : String
  role : Role
deriving DecidableEq, Repr

/-- The `JWT_SECRET` / `JWT_EXPIRES_IN` environment configuration. -/
structure JwtConfig where
  secret : String
  expiresIn : Nat
deriving DecidableEq, Repr

/-- Modelled from the spec: a `jsonwebtoken` token is either a payload signed
with some secret and carrying an expiry instant, or a malformed string. -/
inductive Token where
  | signed : JWTPayload → String → Nat → Token
  | malformed : String → Token
deriving DecidableEq, Repr

/-- The failures `jwt.verify` throws: bad signature, expired, malformed. -/
inductive JwtError where
  | badSignature : JwtError
  | expired : JwtError
  | malformedToken : JwtError
deriving DecidableEq, Repr

/-- Modelled from the spec: `jwt.sign(payload, secret, { expiresIn })`. -/
def jwtSign (p : JWTPayload) (secret : String) (now lifetime : Nat) : Token :=
  Token.signed p secret (now + lifetime)

/-- Modelled from the spec: `jwt.verify(token, secret)` at instant `now` —
returns the claims, or throws on any signature, expiry, or malformed-token
failure (embedded as `Except.error`). -/
def jwtVerify (t : Token) (secret : String) (now : Nat) : Except JwtError JWTPayload :=
  match t with
  | Token.malformed _ => Except.error JwtError.malformedToken
  | Token.signed p s expiry =>
      if s ≠ secret then Except.error JwtError.badSignature
      else if expiry ≤ now then Except.error JwtError.expired
      else Except.ok p

/-- `generateToken` (`src/utils/auth.ts`). -/
def generateToken (cfg : JwtConfig) (p : JWTPayload) (now : Nat) : Token :=
  jwtSign p cfg.secret now cfg.expiresIn

/-- `verifyToken` (`src/utils/auth.ts`): wraps `jwt.verify` in `try/catch`
and turns every thrown failure into `null` — it is total and never throws. -/
def verifyToken (cfg : JwtConfig) (t : Token) (now : Nat) : Option JWTPayload :=
  match jwtVerify t cfg.secret now with
  | Except.ok p => some p
  | Except.error _ => none

/-! ## Auth controller (`authController.ts`) -/

/-- A registration request body: each field possibly absent.  A present
`role` is already a member of the two-value enum (Zod rejects other strings
during JSON validation). -/
structure RegisterBody where
  username : Option String
  email : Option String
  password : Option String
  role : Option Role
deriving DecidableEq, Repr

/-- Output of `insertUserSchema.parse` (`@onechu/schemas`). -/
structure InsertUserInput where
  username : String
  email : String
  password : String
  role : Role
deriving DecidableEq, Repr

/-- `insertUserSchema.parse`: `username` 3–50 characters, `email` format,
`password` at least 6 characters, and the default `role := "editor"` applied
when the field is absent. -/
def insertUserParse (b : RegisterBody) : Option InsertUserInput :=
  match b.username, b.email, b.password with
  | some u, some e, some p =>
      if 3 ≤ u.length && u.length ≤ 50 && validateEmail e && 6 ≤ p.length then
        some { username := u, email := e, password := p
               role := b.role.getD Role.editor }
      else none
  | _, _, _ => none

/-- The user object shipped in register/login responses: every `users` column
except `password` — the destructuring that pulls `password` out and keeps
`userWithoutPassword`. -/
structure UserPublic where
  id : Nat
  username : String
  email : String
  role : Role
  createdAt : Nat
  updatedAt : Nat
deriving DecidableEq, Repr

/-- Drop the password column from a stored row. -/
def stripPassword (u : User) : UserPublic :=
  { id := u.id, username := u.username, email := u.email, role := u.role
    createdAt := u.createdAt, updatedAt := u.updatedAt }

/-- The `UNIQUE constraint failed` condition of the insert in `register`. -/
def usernameOrEmailTaken (db : Db) (username email : String) : Bool :=
  db.users.any (fun u => u.username == username || u.email == email)

/-- `register`: validate, hash the password (the bcrypt digest function is
passed in as `hash`), insert — 409 on a unique-constraint violation — and
respond with the inserted row minus its password. -/
def register (hash : String → String) (db : Db) (b : RegisterBody)
    (now : Nat) : Nat × Option UserPublic × Db :=
  match insertUserParse b with
  | none => (400, none, db)
  | some v =>
      if usernameOrEmailTaken db v.username v.email then (409, none, db)
      else
        let user : User :=
          { id := freshUserId db, username := v.username, email := v.email
            password := hash v.password, role := v.role
            createdAt := now, updatedAt := now }
        (201, some (stripPassword user), { db with users := db.users ++ [user] })

/-- `db.select().from(users).where(eq(users.username, username)).limit(1)`. -/
def findUserByUsername (db : Db) (username : String) : Option User :=
  db.users.find? (fun u => u.username == username)

/-- `login`: `loginSchema` requires both fields nonempty; a missing user or a
failed bcrypt comparison (passed in as `verify`) yields 401; success responds
with the stored row minus its password plus a fresh token. -/
def login (verify : String → String → Bool) (cfg : JwtConfig) (db : Db)
    (username password : String) (now : Nat) :
    Nat × Option (UserPublic × Token) :=
  if username.data.isEmpty || password.data.isEmpty then (400, none)
  else
    match findUserByUsername db username with
    | none => (401, none)
    | some user =>
        if !verify password user.password then (401, none)
        else
          let payload : JWTPayload :=
            { userId := user.id, username := user.username
              email := user.email, role := user.role }
          (200, some (stripPassword user, generateToken cfg payload now))

/-- The referential invariant of the association table: every
`post_categories` row points at an existing post. -/
def fkInv (db : Db) : Prop :=
  ∀ pc ∈ db.postCategories, ∃ p ∈ db.posts, p.id = pc.postId

/-! ## Concrete fixtures used by the witness theorems -/

/-- Fixture: an admin account. -/
def uAdmin : User :=
  { id := 1, username := "root", email := "root@site.co", password := "hroot"
    role := Role.admin, createdAt := 0, updatedAt := 0 }

/-- Fixture: the editor who owns the sample post. -/
def uAlice : User :=
  { id := 2, username := "alice", email := "alice@site.co", password := "halice"
    role := Role.editor, createdAt := 0, updatedAt := 0 }

/-- Fixture: a second, unrelated editor. -/
def uBob : User :=
  { id := 3, username := "bob", email := "bob@site.co", password := "hbob"
    role := Role.editor, createdAt := 0, updatedAt := 0 }

/-- Fixture: Bob's caller identity. -/
def authBob : AuthUser :=
  { id := 3, username := "bob", email := "bob@site.co", role := Role.editor }

/-- Fixture: Alice's caller identity. -/
def authAlice : AuthUser :=
  { id := 2, username := "alice", email := "alice@site.co", role := Role.editor }

/-- Fixture: the admin's caller identity. -/
def authAdmin : AuthUser :=
  { id := 1, username := "root", email := "root@site.co", role := Role.admin }

/-- Fixture: a draft post owned by Alice. -/
def postHello : Post :=
  { id := 10, title := "Hello", slug := "hello", content := "say hello now"
    contentType := ContentType.markdown, excerpt := none
    status := PostStatus.draft, featuredImage := none, authorId := 2
    createdAt := 1, updatedAt := 1 }

/-- Fixture: a published post owned by Alice. -/
def postWorld : Post :=
  { id := 11, title := "World", slug := "world", content := "around the world"
    contentType := ContentType.markdown, excerpt := none
    status := PostStatus.published, featuredImage := none, authorId := 2
    createdAt := 2, updatedAt := 2 }

/-- Fixture: a published post owned by Bob. -/
def postNews : Post :=
  { id := 12, title := "News", slug := "news", content := "fresh news"
    contentType := ContentType.html, excerpt := none
    status := PostStatus.published, featuredImage := none, authorId := 3
    createdAt := 3, updatedAt := 3 }

/-- Fixture: a post whose content mentions "hello" only in lowercase. -/
def postGreet : Post :=
  { id := 13, title := "greetings", slug := "greetings"
    content := "say hello now", contentType := ContentType.markdown
    excerpt := none, status := PostStatus.draft, featuredImage := none
    authorId := 2, createdAt := 4, updatedAt := 4 }

/-- Fixture: a category with one associated post. -/
def catTech : Category :=
  { id := 5, name := "Tech", slug := "tech", description := none
    createdAt := 0, updatedAt := 0 }

/-- Fixture: an empty category. -/
def catMisc : Category :=
  { id := 6, name := "Misc", slug := "misc", description := none
    createdAt := 0, updatedAt := 0 }

/-- Fixture: the base database state for the witnesses. -/
def dbW : Db :=
  { users := [uAdmin, uAlice, uBob]
    posts := [postHello, postWorld, postNews]
    categories := [catTech, catMisc]
    postCategories := [{ postId := 10, categoryId := 5 }] }

/-- Fixture: a posts listing query with `limit = 2` and everything else at its
default. -/
def qLimit2 : PostsQuery :=
  { page := 1, limit := 2, status := none, category := none, author := none
    search := none, sortBy := SortByCol.createdAtCol
    sortOrder := SortDir.descDir }

/-- Fixture: a posts listing query whose only filter is `search = "Hello"`. -/
def qSearchHello : PostsQuery :=
  { page := 1, limit := 10, status := none, category := none, author := none
    search := some "Hello", sortBy := SortByCol.createdAtCol
    sortOrder := SortDir.descDir }

/-- Fixture: a registration body with no `role` field. -/
def bodyNoRole : RegisterBody :=
  { username := some "carol", email := some "carol@site.co"
    password := some "pw123456", role := none }

/-- Fixture: a posts listing query string with every parameter absent. -/
def rawEmptyQuery : RawPostsQuery :=
  { page := none, limit := none, status := none, category := none
    author := none, search := none, sortBy := none, sortOrder := none }

/-- Fixture: the validated form of `bodyNoRole`. -/
def vCarol : InsertUserInput :=
  { username := "carol", email := "carol@site.co", password := "pw123456"
    role := Role.editor }

/-- Fixture: the all-default validated posts listing query. -/
def qDefaults : PostsQuery :=
  { page := 1, limit := 10, status := none, category := none, author := none
    search := none, sortBy := SortByCol.createdAtCol
    sortOrder := SortDir.descDir }

/-- Fixture: the stored row produced by registering `bodyNoRole`. -/
def userCarol : User :=
  { id := 4, username := "carol", email := "carol@site.co"
    password := "digest:pw123456", role := Role.editor
    createdAt := 7, updatedAt := 7 }

/-- Fixture: a stand-in bcrypt digest function for the witnesses. -/
def hashW (password : String) : String :=
  "digest:" ++ password

/-- Fixture: the matching stand-in bcrypt comparison. -/
def verifyW (password stored : String) : Bool :=
  stored == "digest:" ++ password

/-- Fixture: a token-service configuration. -/
def cfgW : JwtConfig :=
  { secret := "your-secret-key", expiresIn := 604800 }

/-- Fixture: a claims payload. -/
def payloadW : JWTPayload :=
  { userId := 2, username := "alice", email := "alice@site.co"
    role := Role.editor }

/-! ## Helper lemmas -/

/-- Inserting into a list grows its length by one. -/
theorem insertPost_length (le : Post → Post → Bool) (p : Post) (l : List Post) :
    (insertPost le p l).length = l.length + 1 := by
  induction l with
  | nil => rfl
  | cons q rest ih =>
      simp only [insertPost]
      split <;> simp [ih]

/-- The embedding's `ORDER BY` sort is a permutation in length. -/
theorem sortPosts_length (le : Post → Post → Bool) (l : List Post) :
    (sortPosts le l).length = l.length := by
  induction l with
  | nil => rfl
  | cons p rest ih => simp [sortPosts, insertPost_length, ih]

/-- The row-wise update function of `updatePost` never changes the id
column. -/
theorem updateRow_id (d : PostUpdate) (now id : Nat) (p : Post) :
    (if p.id == id then applyPostUpdate p d now else p).id = p.id := by
  split <;> rfl

/-- Variadic `or(...)` evaluates like `List.any`. -/
theorem evalCond_orAll (cs : List Cond) (p : Post) :
    evalCond (orAll cs) p = cs.any (fun c => evalCond c p) := by
  induction cs with
  | nil => rfl
  | cons c rest ih =>
      cases rest with
      | nil => simp [orAll, evalCond]
      | cons d ds =>
          rw [show orAll (c :: d :: ds) = Cond.disj c (orAll (d :: ds)) from rfl]
          simp [evalCond, ih]

/-! ## Claim theorems -/

/-- C6 counterexample: the empty string consists only of characters from the
allowed class (vacuously), yet `validateSlug` rejects it — the regex
`^[a-z0-9-]+$` demands at least one character. -/
theorem validateSlug_vacuous_empty :
    (∀ c ∈ String.data "", isSlugChar c = true) ∧ validateSlug "" = false := by
  decide

/-- C6 (amended): every nonempty string consisting only of lowercase ASCII
letters, digits, and hyphens is accepted by `validateSlug`; every string
containing an uppercase letter, a space, or any other character outside that
set is rejected. -/
theorem validateSlug_spec (s : String) :
    (s.data ≠ [] → (∀ c ∈ s.data, isSlugChar c = true) → validateSlug s = true) ∧
    ((∃ c ∈ s.data, isSlugChar c = false) → validateSlug s = false) := by
  constructor
  · intro hne hall
    simp [validateSlug, List.isEmpty_iff, hne]
    exact hall
  · rintro ⟨c, hc, hbad⟩
    simp only [validateSlug, Bool.and_eq_false_iff]
    right
    rw [← Bool.not_eq_true, List.all_eq_true]
    intro hall
    have h1 := hall c hc
    rw [hbad] at h1
    exact Bool.false_ne_true h1

/-- C6 witness: a concrete slug is accepted and a concrete string with a
space and an uppercase letter is rejected. -/
theorem validateSlug_spec_witness :
    validateSlug "post-slug-1" = true ∧ validateSlug "Post Slug" = false :=
  ⟨(validateSlug_spec "post-slug-1").1 (by decide) (by decide),
   (validateSlug_spec "Post Slug").2 (by decide)⟩

/-- C2: a token issued by `generateToken` round-trips through `verifyToken`
to the identical claims at any instant before its expiry; and whenever the
underlying `jwt.verify` throws (wrong signature, expired, malformed),
`verifyToken` returns `none` instead of propagating the failure. -/
theorem verifyToken_roundtrip (cfg : JwtConfig) (p : JWTPayload)
    (issuedAt checkedAt : Nat) (t : Token) (e : JwtError) :
    (checkedAt < issuedAt + cfg.expiresIn →
        verifyToken cfg (generateToken cfg p issuedAt) checkedAt = some p) ∧
    (jwtVerify t cfg.secret checkedAt = Except.error e →
        verifyToken cfg t checkedAt = none) := by
  constructor
  · intro h
    simp [verifyToken, generateToken, jwtSign, jwtVerify, Nat.not_le.mpr h]
  · intro h
    simp [verifyToken, h]

/-- C2 witness: a concrete round trip before expiry, and a malformed token
mapped to `none`. -/
theorem verifyToken_roundtrip_witness :
    verifyToken cfgW (generateToken cfgW payloadW 1000) 2000 = some payloadW ∧
    verifyToken cfgW (Token.malformed "garbage") 2000 = none :=
  ⟨(verifyToken_roundtrip cfgW payloadW 1000 2000 (Token.malformed "garbage")
      JwtError.malformedToken).1 (by decide),
   (verifyToken_roundtrip cfgW payloadW 1000 2000 (Token.malformed "garbage")
      JwtError.malformedToken).2 rfl⟩

/-- C1: on an authenticated PATCH or DELETE of an existing post (and, for
PATCH, a well-formed slug), the mutation proceeds past the authorization
check when the caller is the post's author or an admin — the update can then
only end in 200 or in the slug-conflict 409, and the delete succeeds — while
any other caller receives 403 and the store is returned unchanged. -/
theorem postMutationOwnership (db : Db) (caller : AuthUser) (id : Nat)
    (d : PostUpdate) (cids : Option (List Nat)) (now : Nat) (post : Post)
    (hpost : findPost db id = some post) (hslug : updateSlugBad d = false) :
    ((caller.id = post.authorId ∨ caller.role = Role.admin) →
        ((updatePost db caller id d cids now).1 = 200 ∨
          (updatePost db caller id d cids now).1 = 409) ∧
        (deletePost db caller id).1 = 200) ∧
    (caller.id ≠ post.authorId ∧ caller.role ≠ Role.admin →
        updatePost db caller id d cids now = (403, db) ∧
        deletePost db caller id = (403, db)) := by
  constructor
  · intro hauth
    have hgp : ¬(¬post.authorId = caller.id ∧ ¬caller.role = Role.admin) := by
      rcases hauth with h | h
      · exact fun hq => hq.1 h.symm
      · exact fun hq => hq.2 h
    constructor
    · by_cases hc : updateSlugConflict db d post = true
      · right
        simp [updatePost, hslug, hpost, hgp, hc]
      · left
        simp only [Bool.not_eq_true] at hc
        simp [updatePost, hslug, hpost, hgp, hc]
    · simp [deletePost, hpost, hgp]
  · rintro ⟨h1, h2⟩
    have hgp : ¬post.authorId = caller.id ∧ ¬caller.role = Role.admin :=
      ⟨fun h => h1 h.symm, h2⟩
    refine ⟨?_, ?_⟩
    · simp [updatePost, hslug, hpost, hgp.1, hgp.2]
    · simp [deletePost, hpost, hgp.1, hgp.2]

/-- C1 witness: the editor Bob can neither update nor delete Alice's post —
both requests return 403 and leave the store untouched. -/
theorem postMutationOwnership_witness :
    updatePost dbW authBob 10 {} none 5 = (403, dbW) ∧
    deletePost dbW authBob 10 = (403, dbW) :=
  (postMutationOwnership dbW authBob 10 {} none 5 postHello (by decide) rfl).2
    (by decide)

/-- C3: an admin deleting an existing category gets 400 and an unchanged
store when any association row references the category, and otherwise the
category row (and only it) is removed with a success status. -/
theorem deleteCategory_guard (db : Db) (caller : AuthUser) (id : Nat)
    (cat : Category) (hadmin : caller.role = Role.admin)
    (hcat : findCategory db id = some cat) :
    ((∃ pc ∈ db.postCategories, pc.categoryId = id) →
        deleteCategory db caller id = (400, db)) ∧
    ((∀ pc ∈ db.postCategories, pc.categoryId ≠ id) →
        deleteCategory db caller id =
          (200, { db with categories := db.categories.filter (fun c => c.id ≠ id) }) ∧
        (∀ c2 ∈ (deleteCategory db caller id).2.categories, c2.id ≠ id) ∧
        ∀ c2 ∈ db.categories, c2.id ≠ id →
          c2 ∈ (deleteCategory db caller id).2.categories) := by
  constructor
  · rintro ⟨pc, hmem, hcid⟩
    have hpos : 0 < (db.postCategories.filter (fun pc => pc.categoryId == id)).length := by
      refine List.length_pos.mpr (List.ne_nil_of_mem (a := pc) ?_)
      exact List.mem_filter.mpr ⟨hmem, by simp [hcid]⟩
    simp [deleteCategory, hadmin, hcat, hpos]
  · intro hall
    have hnil : (db.postCategories.filter (fun pc => pc.categoryId == id)) = [] := by
      refine List.filter_eq_nil_iff.mpr (fun pc hmem => ?_)
      simp [hall pc hmem]
    have hres : deleteCategory db caller id =
        (200, { db with categories := db.categories.filter (fun c => c.id ≠ id) }) := by
      simp [deleteCategory, hadmin, hcat, hnil]
    refine ⟨hres, ?_, ?_⟩
    · intro c2 hc2
      rw [hres] at hc2
      have := List.mem_filter.mp hc2
      simpa using this.2
    · intro c2 hc2 hne
      rw [hres]
      exact List.mem_filter.mpr ⟨hc2, by simpa using hne⟩

/-- C3 witness: deleting the referenced category `Tech` fails with 400 and an
unchanged store. -/
theorem deleteCategory_guard_witness :
    deleteCategory dbW authAdmin 5 = (400, dbW) :=
  (deleteCategory_guard dbW authAdmin 5 catTech rfl (by decide)).1 (by decide)

/-- C4: a listing request with `limit = 2` on at least three matching rows
(first page, the default) returns exactly two rows, `pagination.total` equal
to the true matching-row count, `totalPages` equal to the ceiling division of
`total` by `limit`, and the data slice at offset `(page-1)*limit` of the
sorted matching rows. -/
theorem getPosts_pagination (db : Db) (q : PostsQuery)
    (hlimit : q.limit = 2) (hpage : q.page = 1)
    (htotal : 3 ≤ (filteredPosts db q).length) :
    (getPostsResult db q).data.length = 2 ∧
    (getPostsResult db q).total = (filteredPosts db q).length ∧
    (getPostsResult db q).totalPages = (filteredPosts db q).length ⌈/⌉ q.limit ∧
    (getPostsResult db q).data =
      ((sortPosts (postOrd q) (filteredPosts db q)).drop
        ((q.page - 1) * q.limit)).take q.limit := by
  refine ⟨?_, rfl, ?_, rfl⟩
  · simp only [getPostsResult, List.length_take, List.length_drop,
      sortPosts_length, hlimit, hpage]
    omega
  · rw [Nat.ceilDiv_eq_add_pred_div]
    rfl

/-- C4 witness: listing the three stored posts with `limit = 2` returns two
rows, `total = 3` and `totalPages = 2`. -/
theorem getPosts_pagination_witness :
    3 ≤ (filteredPosts dbW qLimit2).length ∧
    (getPostsResult dbW qLimit2).data.length = 2 ∧
    (getPostsResult dbW qLimit2).total = (filteredPosts dbW qLimit2).length ∧
    (getPostsResult dbW qLimit2).totalPages = (filteredPosts dbW qLimit2).length ⌈/⌉ 2 :=
  ⟨by decide,
   (getPosts_pagination dbW qLimit2 rfl rfl (by decide)).1,
   (getPosts_pagination dbW qLimit2 rfl rfl (by decide)).2.1,
   (getPosts_pagination dbW qLimit2 rfl rfl (by decide)).2.2.1⟩

/-- C5 counterexample: with `search = "Hello"`, the post titled "greetings"
with content "say hello now" matches the search filter — SQLite `LIKE` is
ASCII case-insensitive — although the token "Hello" is not a substring of its
title or content, refuting the claimed substring characterisation. -/
theorem searchFilter_substring_cex :
    evalWhere (whereClause dbW qSearchHello) postGreet = true ∧
    ¬ ∃ k ∈ searchKeywords "Hello",
        (k.data <:+: postGreet.title.data) ∨ (k.data <:+: postGreet.content.data) := by
  decide

/-- C5 (amended): with no other filter set, a post passes the search filter
iff the whitespace tokenization of the search string is empty (no filter is
applied) or some token matches the post's title or content under SQLite
`LIKE` `'%token%'` semantics — ASCII-case-insensitive substring search, with
unescaped `%` and `_` in tokens acting as wildcards. -/
theorem getPosts_search_filter (db : Db) (q : PostsQuery) (s : String)
    (p : Post) (h1 : q.status = none) (h2 : q.author = none)
    (h3 : q.category = none) (h4 : q.search = some s) :
    evalWhere (whereClause db q) p = true ↔
      (searchKeywords s = [] ∨ ∃ k ∈ searchKeywords s,
        strLike ("%" ++ k ++ "%") p.title = true ∨
        strLike ("%" ++ k ++ "%") p.content = true) := by
  unfold whereClause
  rw [h3]
  simp only [postsConditions, h1, h2, h4, List.nil_append]
  by_cases hse : s.data.isEmpty = true
  · have hk : searchKeywords s = [] := by
      have hs : s.data = [] := List.isEmpty_iff.mp hse
      unfold searchKeywords
      rw [hs]
      decide
    simp [hse, evalWhere, hk]
  · rw [Bool.not_eq_true] at hse
    by_cases hke : (searchKeywords s).isEmpty = true
    · have hk : searchKeywords s = [] := List.isEmpty_iff.mp hke
      simp [hse, hke, evalWhere, hk]
    · rw [Bool.not_eq_true] at hke
      have hk : searchKeywords s ≠ [] := by
        simpa [List.isEmpty_iff] using hke
      simp only [hse, hke, Bool.false_eq_true, if_false]
      rw [show ∀ c : Cond, andAll [c] = c from fun _ => rfl]
      simp [evalWhere, evalCond_orAll, List.any_map, List.any_eq_true,
        evalCond, hk, Function.comp]

/-- C5 witness for the amended statement: the filter built from
`search = "Hello"` evaluated on the lowercase-content post. -/
theorem getPosts_search_filter_witness :
    evalWhere (whereClause dbW qSearchHello) postGreet = true ↔
      (searchKeywords "Hello" = [] ∨ ∃ k ∈ searchKeywords "Hello",
        strLike ("%" ++ k ++ "%") postGreet.title = true ∨
        strLike ("%" ++ k ++ "%") postGreet.content = true) :=
  getPosts_search_filter dbW qSearchHello "Hello" postGreet rfl rfl rfl rfl

/-- C7: validation applies defaults on success — a registration body without
a `role` field validates to `role = "editor"`, and a posts listing query
without `page` (resp. `limit`) validates to `page = 1` (resp. `limit = 10`). -/
theorem validationDefaults (b : RegisterBody) (r : RawPostsQuery) :
    (b.role = none → ∀ v, insertUserParse b = some v → v.role = Role.editor) ∧
    (r.page = none → ∀ q, parsePostsQuery r = some q → q.page = 1) ∧
    (r.limit = none → ∀ q, parsePostsQuery r = some q → q.limit = 10) := by
  refine ⟨?_, ?_, ?_⟩
  · intro hrole v hv
    rcases b with ⟨bu, be, bp, brole⟩
    simp only at hrole
    subst hrole
    cases bu <;> cases be <;> cases bp <;> simp [insertUserParse] at hv
    obtain ⟨-, hv⟩ := hv
    subst hv
    rfl
  · intro hpage q hq
    unfold parsePostsQuery at hq
    rw [hpage] at hq
    rcases hl : parseLimitParam r.limit with _ | limit <;> rw [hl] at hq
    · exact Option.noConfusion hq
    rcases hs : parseStatusParam r.status with _ | status <;> rw [hs] at hq
    · exact Option.noConfusion hq
    rcases hc : parsePosParam r.category with _ | category <;> rw [hc] at hq
    · exact Option.noConfusion hq
    rcases ha : parsePosParam r.author with _ | author <;> rw [ha] at hq
    · exact Option.noConfusion hq
    rcases hsb : parseSortByParam r.sortBy with _ | sb <;> rw [hsb] at hq
    · exact Option.noConfusion hq
    rcases hso : parseSortOrderParam r.sortOrder with _ | so <;> rw [hso] at hq
    · exact Option.noConfusion hq
    have hq2 := Option.some.inj hq
    subst hq2
    rfl
  · intro hlimit q hq
    unfold parsePostsQuery at hq
    rw [hlimit] at hq
    rcases hp : parsePageParam r.page with _ | page <;> rw [hp] at hq
    · exact Option.noConfusion hq
    rcases hs : parseStatusParam r.status with _ | status <;> rw [hs] at hq
    · exact Option.noConfusion hq
    rcases hc : parsePosParam r.category with _ | category <;> rw [hc] at hq
    · exact Option.noConfusion hq
    rcases ha : parsePosParam r.author with _ | author <;> rw [ha] at hq
    · exact Option.noConfusion hq
    rcases hsb : parseSortByParam r.sortBy with _ | sb <;> rw [hsb] at hq
    · exact Option.noConfusion hq
    rcases hso : parseSortOrderParam r.sortOrder with _ | so <;> rw [hso] at hq
    · exact Option.noConfusion hq
    have hq2 := Option.some.inj hq
    subst hq2
    rfl

/-- C7 witness: the concrete role-less registration body validates with role
editor, and the all-absent query string validates with page 1 and limit 10. -/
theorem validationDefaults_witness :
    (∃ v, insertUserParse bodyNoRole = some v ∧ v.role = Role.editor) ∧
    (∃ q, parsePostsQuery rawEmptyQuery = some q ∧ q.page = 1 ∧ q.limit = 10) :=
  ⟨⟨vCarol, by decide,
    (validationDefaults bodyNoRole rawEmptyQuery).1 rfl vCarol (by decide)⟩,
   ⟨qDefaults, by decide,
    (validationDefaults bodyNoRole rawEmptyQuery).2.1 rfl qDefaults (by decide),
    (validationDefaults bodyNoRole rawEmptyQuery).2.2 rfl qDefaults (by decide)⟩⟩

/-- C8: a successful `deletePost` is exactly the association-rows delete
followed by the post-row delete (in that order); the intermediate state
still satisfies the referential invariant, afterwards no association row
references the deleted id, and every mutating operation — delete, create,
update, category delete — preserves the invariant that each association
row's `postId` names an existing post. -/
theorem fkInvariantPreservation (db : Db) (caller : AuthUser) (id : Nat)
    (d : PostUpdate) (cids : Option (List Nat)) (data : PostInsert)
    (newCids : List Nat) (now : Nat) (hinv : fkInv db) :
    ((deletePost db caller id).1 = 200 →
        (deletePost db caller id).2 =
          deletePostRowStep (deletePostAssocStep db id) id ∧
        fkInv (deletePostAssocStep db id) ∧
        ∀ pc ∈ (deletePost db caller id).2.postCategories, pc.postId ≠ id) ∧
    fkInv (deletePost db caller id).2 ∧
    fkInv (createPost db caller data newCids now).2 ∧
    fkInv (updatePost db caller id d cids now).2 ∧
    fkInv (deleteCategory db caller id).2 := by
  have hassoc : fkInv (deletePostAssocStep db id) := by
    intro pc hmem
    exact hinv pc (List.mem_filter.mp hmem).1
  have hfinal : fkInv (deletePostRowStep (deletePostAssocStep db id) id) := by
    intro pc hmem
    obtain ⟨hmem2, hne⟩ := List.mem_filter.mp hmem
    obtain ⟨p, hp, hpid⟩ := hinv pc hmem2
    refine ⟨p, List.mem_filter.mpr ⟨hp, ?_⟩, hpid⟩
    simp only [decide_eq_true_eq] at hne ⊢
    omega
  have hnorefs : ∀ pc ∈ (deletePostRowStep (deletePostAssocStep db id) id).postCategories,
      pc.postId ≠ id := by
    intro pc hmem
    have := (List.mem_filter.mp hmem).2
    simpa using this
  refine ⟨?_, ?_, ?_, ?_, ?_⟩
  · intro h200
    cases hp : findPost db id with
    | none => rw [deletePost, hp] at h200; exact absurd h200 (by simp)
    | some post =>
        by_cases hg : ¬post.authorId = caller.id ∧ ¬caller.role = Role.admin
        · rw [deletePost, hp] at h200
          simp [hg] at h200
        · have hres : deletePost db caller id =
              (200, deletePostRowStep (deletePostAssocStep db id) id) := by
            simp [deletePost, hp, hg]
          exact ⟨by rw [hres], hassoc, by rw [hres]; exact hnorefs⟩
  · cases hp : findPost db id with
    | none => simpa [deletePost, hp] using hinv
    | some post =>
        by_cases hg : ¬post.authorId = caller.id ∧ ¬caller.role = Role.admin
        · simpa [deletePost, hp, hg] using hinv
        · simpa [deletePost, hp, hg] using hfinal
  · by_cases h1 : (!validateSlug data.slug) = true
    · simpa [createPost, h1] using hinv
    rw [Bool.not_eq_true] at h1
    by_cases h2 : slugTaken db data.slug = true
    · simpa [createPost, h1, h2] using hinv
    rw [Bool.not_eq_true] at h2
    by_cases h3 : createCatsMismatch db newCids = true
    · simpa [createPost, h1, h2, h3] using hinv
    rw [Bool.not_eq_true] at h3
    have hres : (createPost db caller data newCids now).2 =
        { db with
          posts := db.posts ++ [newPostRow db caller data now]
          postCategories := db.postCategories ++
            newCids.map (fun c => { postId := freshPostId db, categoryId := c }) } := by
      simp [createPost, h1, h2, h3]
    rw [hres]
    intro pc hmem
    rcases List.mem_append.mp hmem with hl | hr
    · obtain ⟨p, hp, hpid⟩ := hinv pc hl
      exact ⟨p, List.mem_append_left _ hp, hpid⟩
    · obtain ⟨c, _, rfl⟩ := List.mem_map.mp hr
      exact ⟨newPostRow db caller data now,
        List.mem_append_right _ (List.mem_singleton.mpr rfl), rfl⟩
  · by_cases hb : updateSlugBad d = true
    · simpa [updatePost, hb] using hinv
    rw [Bool.not_eq_true] at hb
    cases hp : findPost db id with
    | none => simpa [updatePost, hb, hp] using hinv
    | some post =>
        by_cases hg : ¬post.authorId = caller.id ∧ ¬caller.role = Role.admin
        · simpa [updatePost, hb, hp, hg] using hinv
        by_cases hc : updateSlugConflict db d post = true
        · simpa [updatePost, hb, hp, hg, hc] using hinv
        rw [Bool.not_eq_true] at hc
        have hids : ∀ pc2 ∈ db.postCategories,
            ∃ p2 ∈ updatedPosts db id d now, p2.id = pc2.postId := by
          intro pc2 hmem2
          obtain ⟨p, hp2, hpid⟩ := hinv pc2 hmem2
          exact ⟨_, List.mem_map_of_mem _ hp2, by rw [updateRow_id]; exact hpid⟩
        cases cids with
        | none =>
            have hres : (updatePost db caller id d none now).2 =
                { db with posts := updatedPosts db id d now } := by
              simp [updatePost, hb, hp, hg, hc]
            rw [hres]
            exact hids
        | some cl =>
            have hres : (updatePost db caller id d (some cl) now).2 =
                { db with
                  posts := updatedPosts db id d now
                  postCategories :=
                    db.postCategories.filter (fun pc => pc.postId ≠ id) ++
                      cl.map (fun c => { postId := id, categoryId := c }) } := by
              simp [updatePost, hb, hp, hg, hc]
            rw [hres]
            intro pc hmem
            rcases List.mem_append.mp hmem with hl | hr
            · exact hids pc (List.mem_filter.mp hl).1
            · obtain ⟨c, _, rfl⟩ := List.mem_map.mp hr
              have hp2 : db.posts.find? (fun p => p.id == id) = some post := hp
              have hpostmem := List.mem_of_find?_eq_some hp2
              have hpid := List.find?_some hp2
              refine ⟨_, List.mem_map_of_mem
                (fun p => if p.id == id then applyPostUpdate p d now else p)
                hpostmem, ?_⟩
              rw [updateRow_id]
              simpa using hpid
  · by_cases hr : caller.role = Role.admin
    case neg => simpa [deleteCategory, hr] using hinv
    cases hcat : findCategory db id with
    | none => simpa [deleteCategory, hr, hcat] using hinv
    | some cat =>
        by_cases hcnt : 0 <
            (db.postCategories.filter (fun pc => pc.categoryId == id)).length
        · simpa [deleteCategory, hr, hcat, hcnt] using hinv
        · have hres : (deleteCategory db caller id).2 =
              { db with categories := db.categories.filter (fun c => c.id ≠ id) } := by
            simp [deleteCategory, hr, hcat, hcnt]
          rw [hres]
          exact hinv

/-- C8 witness: deleting Alice's post as Alice succeeds, factors into the two
delete statements, and leaves no association row referencing the post. -/
theorem fkInvariantPreservation_witness :
    (deletePost dbW authAlice 10).2 =
      deletePostRowStep (deletePostAssocStep dbW 10) 10 ∧
    fkInv (deletePostAssocStep dbW 10) ∧
    ∀ pc ∈ (deletePost dbW authAlice 10).2.postCategories, pc.postId ≠ 10 :=
  (fkInvariantPreservation dbW authAlice 10 {} none
      { title := "t", slug := "t", content := "c"
        contentType := ContentType.markdown, excerpt := none
        status := PostStatus.draft, featuredImage := none }
      [] 9 (by
        show ∀ pc ∈ dbW.postCategories, ∃ p ∈ dbW.posts, p.id = pc.postId
        decide)).1 (by decide)

/-- C9: the JSON body of a successful register or login response carries the
stored user row with the password field removed — the response user type has
no password field and every other field equals the stored row's. -/
theorem responses_omit_password (hash : String → String)
    (verify : String → String → Bool) (cfg : JwtConfig) (db : Db)
    (b : RegisterBody) (username password : String) (now : Nat) :
    (∀ s up db2, register hash db b now = (s, some up, db2) →
        ∃ u ∈ db2.users, up = stripPassword u) ∧
    (∀ up t, (login verify cfg db username password now).2 = some (up, t) →
        ∃ u ∈ db.users, up = stripPassword u) := by
  constructor
  · intro s up db2 h
    unfold register at h
    split at h
    · simp only [Prod.mk.injEq] at h
      exact Option.noConfusion h.2.1
    split at h
    · simp only [Prod.mk.injEq] at h
      exact Option.noConfusion h.2.1
    simp only [Prod.mk.injEq] at h
    obtain ⟨-, h2, h3⟩ := h
    subst h3
    exact ⟨_, List.mem_append_right _ (List.mem_singleton.mpr rfl),
      (Option.some.inj h2).symm⟩
  · intro up t h
    unfold login at h
    split at h
    · exact Option.noConfusion h
    split at h
    · exact Option.noConfusion h
    rename_i user hf
    split at h
    · exact Option.noConfusion h
    have h2 := Option.some.inj h
    injection h2 with hu htok
    exact ⟨user, List.mem_of_find?_eq_some hf, hu.symm⟩

/-- C9 witness: registering Carol responds with exactly the stored row minus
its password. -/
theorem responses_omit_password_witness :
    ∃ u ∈ ({ dbW with users := dbW.users ++ [userCarol] } : Db).users,
      stripPassword userCarol = stripPassword u :=
  (responses_omit_password hashW verifyW cfgW dbW bodyNoRole
      "alice" "pw123456" 7).1
    201 (stripPassword userCarol) { dbW with users := dbW.users ++ [userCarol] }
    (by decide)

/-- C10: a successful `updatePost` maps the stored row to `applyPostUpdate`
of the parsed partial body: `authorId` and `createdAt` are unchanged (the
partial insert schema has no such fields), `updatedAt` is set to the request
time, and every field absent from the body keeps its stored value. -/
theorem updatePost_frame (db : Db) (caller : AuthUser) (id : Nat)
    (d : PostUpdate) (cids : Option (List Nat)) (now : Nat) (post : Post)
    (hpost : findPost db id = some post)
    (h200 : (updatePost db caller id d cids now).1 = 200) :
    findPost (updatePost db caller id d cids now).2 id =
      some (applyPostUpdate post d now) ∧
    (applyPostUpdate post d now).authorId = post.authorId ∧
    (applyPostUpdate post d now).createdAt = post.createdAt ∧
    (applyPostUpdate post d now).updatedAt = now ∧
    (d.title = none → (applyPostUpdate post d now).title = post.title) ∧
    (d.slug = none → (applyPostUpdate post d now).slug = post.slug) ∧
    (d.content = none → (applyPostUpdate post d now).content = post.content) ∧
    (d.contentType = none →
      (applyPostUpdate post d now).contentType = post.contentType) ∧
    (d.excerpt = none → (applyPostUpdate post d now).excerpt = post.excerpt) ∧
    (d.status = none → (applyPostUpdate post d now).status = post.status) ∧
    (d.featuredImage = none →
      (applyPostUpdate post d now).featuredImage = post.featuredImage) := by
  have hfind : (updatedPosts db id d now).find?
      (fun p => p.id == id) = some (applyPostUpdate post d now) := by
    unfold updatedPosts
    rw [List.find?_map]
    have hfun : ((fun p : Post => p.id == id) ∘
        (fun p => if p.id == id then applyPostUpdate p d now else p)) =
        (fun p : Post => p.id == id) := by
      funext p
      simp only [Function.comp]
      rw [updateRow_id]
    rw [hfun]
    have hpost2 : db.posts.find? (fun p => p.id == id) = some post := hpost
    rw [hpost2]
    have hid0 := List.find?_some hpost2
    have hid : (post.id == id) = true := hid0
    simp [Option.map, hid]
  refine ⟨?_, rfl, rfl, rfl, ?_, ?_, ?_, ?_, ?_, ?_, ?_⟩
  · have hbad : updateSlugBad d = false := by
      by_cases hb : updateSlugBad d = true
      · rw [updatePost, hb] at h200
        exact absurd h200 (by simp)
      · simpa using hb
    have hconf : ¬updateSlugConflict db d post = true := by
      intro hc
      rw [updatePost, hbad] at h200
      simp only [Bool.false_eq_true, if_false] at h200
      rw [hpost] at h200
      by_cases hg : ¬post.authorId = caller.id ∧ ¬caller.role = Role.admin
      · simp [hg] at h200
      · simp [hg, hc] at h200
    have hg : ¬(¬post.authorId = caller.id ∧ ¬caller.role = Role.admin) := by
      intro hg
      rw [updatePost, hbad] at h200
      simp only [Bool.false_eq_true, if_false] at h200
      rw [hpost] at h200
      simp [hg] at h200
    rw [Bool.not_eq_true] at hconf
    cases cids with
    | none =>
        have hres : (updatePost db caller id d none now).2 =
            { db with posts := updatedPosts db id d now } := by
          simp [updatePost, hbad, hpost, hg, hconf]
        rw [hres]
        exact hfind
    | some cl =>
        have hres : (updatePost db caller id d (some cl) now).2 =
            { db with
              posts := updatedPosts db id d now
              postCategories :=
                db.postCategories.filter (fun pc => pc.postId ≠ id) ++
                  cl.map (fun c => { postId := id, categoryId := c }) } := by
          simp [updatePost, hbad, hpost, hg, hconf]
        rw [hres]
        exact hfind
  · intro h
    simp [applyPostUpdate, h]
  · intro h
    simp [applyPostUpdate, h]
  · intro h
    simp [applyPostUpdate, h]
  · intro h
    simp [applyPostUpdate, h]
  · intro h
    simp [applyPostUpdate, h]
  · intro h
    simp [applyPostUpdate, h]
  · intro h
    simp [applyPostUpdate, h]

/-- C10 witness: Alice retitling her post keeps `authorId` and `createdAt`
and updates `updatedAt`. -/
theorem updatePost_frame_witness :
    findPost (updatePost dbW authAlice 10 { title := some "Hi" } none 8).2 10 =
      some (applyPostUpdate postHello { title := some "Hi" } 8) ∧
    (applyPostUpdate postHello { title := some "Hi" } 8).authorId =
      postHello.authorId ∧
    (applyPostUpdate postHello { title := some "Hi" } 8).createdAt =
      postHello.createdAt :=
  have h := updatePost_frame dbW authAlice 10 { title := some "Hi" } none 8
    postHello (by decide) (by decide)
  ⟨h.1, h.2.1, h.2.2.1⟩

end CMS
